import Mathlib

/-!
Verification of the timeline log-ingestion library: a shallow embedding of
its type lattice (column types, inference, promotion), its cascaded line
parser (JSON, syslog, CLF, logfmt, Monolog detectors) and its schema writer,
together with theorems settling the specification claims.

Go integers are modelled as `Int` (Go `int` is 64-bit here; overflow checks
are made explicit where the source checks them).  Go strings are modelled as
`String`; the source indexes bytes, the embedding indexes characters, which
agree on ASCII data.  Go `float64` values are carried as their decimal
literals; the embedding never needs their arithmetic.
-/

set_option maxRecDepth 100000

deriving instance DecidableEq for Except

namespace Timeline

/-- The column-type enumeration of the store, mirroring the Go `ColumnType`
string constants (`BIT`, `BOOLEAN`, …, `UNKNOWN`). -/
inductive ColumnType where
  | Null
  | Boolean
  | Utinyint
  | Usmallint
  | Uinteger
  | Ubigint
  | Tinyint
  | Smallint
  | Integer
  | Bigint
  | Hugeint
  | Float
  | Double
  | Date
  | Time
  | Timestamp
  | Uuid
  | Varchar
  | Json
  | JsonMap
  | UnknownInt
  | UnknownFloat
  | UnknownString
  | Unknown
deriving DecidableEq, Fintype, Repr

/-- The Go string value of each `ColumnType` constant. -/
def ColumnType.str : ColumnType → String
  | .Null => "BIT"
  | .Boolean => "BOOLEAN"
  | .Utinyint => "UTINYINT"
  | .Usmallint => "USMALLINT"
  | .Uinteger => "UINTEGER"
  | .Ubigint => "UBIGINT"
  | .Tinyint => "TINYINT"
  | .Smallint => "SMALLINT"
  | .Integer => "INTEGER"
  | .Bigint => "BIGINT"
  | .Hugeint => "HUGEINT"
  | .Float => "FLOAT"
  | .Double => "DOUBLE"
  | .Date => "DATE"
  | .Time => "TIME"
  | .Timestamp => "TIMESTAMP"
  | .Uuid => "UUID"
  | .Varchar => "VARCHAR"
  | .Json => "JSON"
  | .JsonMap => "JSON_MAP"
  | .UnknownInt => "UNKNOWN_INT"
  | .UnknownFloat => "UNKNOWN_FLOAT"
  | .UnknownString => "UNKNOWN_STRING"
  | .Unknown => "UNKNOWN"

/-- Embedding of `ColumnType.PromoteTo` from the source: the promoted type of
a column of type `old` receiving a value of type `given`.  Each outer case is
the Go `switch old`, each inner alternative the Go `switch given`; any pair
that matches no case reaches the shared `Unknown`-with-error return. -/
def ColumnType.PromoteTo (old given : ColumnType) : Except String ColumnType :=
  match old with
  | .Null => .ok given
  | .Boolean =>
    match given with
    | .Null | .Boolean => .ok .Boolean
    | .Utinyint | .Usmallint | .Uinteger | .Ubigint | .Tinyint | .Smallint
    | .Integer | .Bigint | .Hugeint | .Float | .Double => .ok given
    | .Date | .Time | .Timestamp | .Uuid | .Varchar | .Json => .ok .Varchar
    | _ => .error ("no case for old type " ++ old.str)
  | .Utinyint =>
    match given with
    | .Null | .Boolean | .Utinyint => .ok .Utinyint
    | .Usmallint | .Uinteger | .Ubigint | .Float | .Double => .ok given
    | .Tinyint => .ok .Smallint
    | .Smallint => .ok .Integer
    | .Integer => .ok .Bigint
    | .Bigint | .Hugeint => .ok .Hugeint
    | .Date | .Time | .Timestamp | .Uuid | .Varchar | .Json => .ok .Varchar
    | _ => .error ("no case for old type " ++ old.str)
  | .Usmallint =>
    match given with
    | .Null | .Boolean | .Utinyint | .Usmallint => .ok .Usmallint
    | .Uinteger | .Ubigint | .Float | .Double => .ok given
    | .Tinyint => .ok .Integer
    | .Smallint => .ok .Integer
    | .Integer => .ok .Bigint
    | .Bigint | .Hugeint => .ok .Hugeint
    | .Date | .Time | .Timestamp | .Uuid | .Varchar | .Json => .ok .Varchar
    | _ => .error ("no case for old type " ++ old.str)
  | .Uinteger =>
    match given with
    | .Null | .Boolean | .Utinyint | .Usmallint | .Uinteger => .ok .Uinteger
    | .Ubigint => .ok .Ubigint
    | .Tinyint => .ok .Bigint
    | .Smallint => .ok .Bigint
    | .Integer => .ok .Bigint
    | .Bigint | .Hugeint => .ok .Hugeint
    | .Float | .Double => .ok given
    | .Date | .Time | .Timestamp | .Uuid | .Varchar | .Json => .ok .Varchar
    | _ => .error ("no case for old type " ++ old.str)
  | .Ubigint =>
    match given with
    | .Null | .Boolean | .Utinyint | .Usmallint | .Uinteger | .Ubigint => .ok .Ubigint
    | .Tinyint => .ok .Hugeint
    | .Smallint => .ok .Hugeint
    | .Integer => .ok .Hugeint
    | .Bigint | .Hugeint => .ok .Hugeint
    | .Float | .Double => .ok given
    | .Date | .Time | .Timestamp | .Uuid | .Varchar | .Json => .ok .Varchar
    | _ => .error ("no case for old type " ++ old.str)
  | .Tinyint =>
    match given with
    | .Null | .Boolean | .Tinyint => .ok .Tinyint
    | .Utinyint => .ok .Smallint
    | .Usmallint => .ok .Integer
    | .Uinteger => .ok .Bigint
    | .Ubigint => .ok .Hugeint
    | .Smallint | .Integer | .Bigint | .Hugeint | .Float | .Double => .ok given
    | .Date | .Time | .Timestamp | .Uuid | .Varchar | .Json => .ok .Varchar
    | _ => .error ("no case for old type " ++ old.str)
  | .Smallint =>
    match given with
    | .Null | .Boolean | .Tinyint | .Smallint | .Utinyint => .ok .Smallint
    | .Usmallint => .ok .Integer
    | .Uinteger => .ok .Bigint
    | .Ubigint => .ok .Hugeint
    | .Integer | .Bigint | .Hugeint | .Float | .Double => .ok given
    | .Date | .Time | .Timestamp | .Uuid | .Varchar | .Json => .ok .Varchar
    | _ => .error ("no case for old type " ++ old.str)
  | .Integer =>
    match given with
    | .Null | .Boolean | .Tinyint | .Smallint | .Integer | .Utinyint | .Usmallint => .ok .Integer
    | .Uinteger => .ok .Bigint
    | .Ubigint => .ok .Hugeint
    | .Bigint | .Hugeint | .Float | .Double => .ok given
    | .Date | .Time | .Timestamp | .Uuid | .Varchar | .Json => .ok .Varchar
    | _ => .error ("no case for old type " ++ old.str)
  | .Bigint =>
    match given with
    | .Null | .Boolean | .Tinyint | .Smallint | .Integer | .Bigint | .Utinyint | .Usmallint => .ok .Bigint
    | .Uinteger => .ok .Hugeint
    | .Ubigint => .ok .Hugeint
    | .Hugeint | .Float | .Double => .ok given
    | .Date | .Time | .Timestamp | .Uuid | .Varchar | .Json => .ok .Varchar
    | _ => .error ("no case for old type " ++ old.str)
  | .Hugeint =>
    match given with
    | .Null | .Boolean | .Tinyint | .Smallint | .Integer | .Bigint | .Hugeint
    | .Utinyint | .Usmallint | .Uinteger | .Ubigint => .ok .Hugeint
    | .Float | .Double | .Date | .Time | .Timestamp | .Uuid | .Varchar | .Json => .ok .Varchar
    | _ => .error ("no case for old type " ++ old.str)
  | .Float =>
    match given with
    | .Null | .Boolean | .Utinyint | .Usmallint | .Uinteger | .Ubigint
    | .Tinyint | .Smallint | .Integer | .Bigint | .Float => .ok .Float
    | .Double => .ok .Double
    | .Hugeint | .Date | .Time | .Timestamp | .Uuid | .Varchar | .Json => .ok .Varchar
    | _ => .error ("no case for old type " ++ old.str)
  | .Double =>
    match given with
    | .Null | .Boolean | .Utinyint | .Usmallint | .Uinteger | .Ubigint
    | .Tinyint | .Smallint | .Integer | .Bigint | .Float | .Double => .ok .Double
    | .Hugeint | .Date | .Time | .Timestamp | .Uuid | .Varchar | .Json => .ok .Varchar
    | _ => .error ("no case for old type " ++ old.str)
  | .Date =>
    match given with
    | .Null | .Date => .ok .Date
    | .Time | .Timestamp => .ok .Timestamp
    | .Boolean | .Utinyint | .Usmallint | .Uinteger | .Ubigint | .Tinyint | .Smallint
    | .Integer | .Bigint | .Hugeint | .Float | .Double | .Uuid | .Varchar | .Json => .ok .Varchar
    | _ => .error ("no case for old type " ++ old.str)
  | .Time =>
    match given with
    | .Null | .Time => .ok .Time
    | .Date | .Timestamp => .ok .Timestamp
    | .Boolean | .Utinyint | .Usmallint | .Uinteger | .Ubigint | .Tinyint | .Smallint
    | .Integer | .Bigint | .Hugeint | .Float | .Double | .Uuid | .Varchar | .Json => .ok .Varchar
    | _ => .error ("no case for old type " ++ old.str)
  | .Timestamp =>
    match given with
    | .Null | .Timestamp | .Date | .Time => .ok .Timestamp
    | .Boolean | .Utinyint | .Usmallint | .Uinteger | .Ubigint | .Tinyint | .Smallint
    | .Integer | .Bigint | .Hugeint | .Float | .Double | .Uuid | .Varchar | .Json => .ok .Varchar
    | _ => .error ("no case for old type " ++ old.str)
  | .Uuid =>
    match given with
    | .Null | .Uuid => .ok .Uuid
    | .Boolean | .Utinyint | .Usmallint | .Uinteger | .Ubigint | .Tinyint | .Smallint
    | .Integer | .Bigint | .Hugeint | .Float | .Double | .Date | .Time | .Timestamp
    | .Varchar | .Json => .ok .Varchar
    | _ => .error ("no case for old type " ++ old.str)
  | .Varchar =>
    match given with
    | .Null | .Varchar => .ok .Varchar
    | .Boolean | .Utinyint | .Usmallint | .Uinteger | .Ubigint | .Tinyint | .Smallint
    | .Integer | .Bigint | .Hugeint | .Float | .Double | .Date | .Time | .Timestamp
    | .Uuid | .Json => .ok .Varchar
    | _ => .error ("no case for old type " ++ old.str)
  | .Json =>
    match given with
    | .Null | .Json => .ok .Json
    | .Boolean | .Utinyint | .Usmallint | .Uinteger | .Ubigint | .Tinyint | .Smallint
    | .Integer | .Bigint | .Hugeint | .Float | .Double | .Date | .Time | .Timestamp
    | .Uuid | .Varchar => .ok .Varchar
    | _ => .error ("no case for old type " ++ old.str)
  | _ => .error ("no case for old type " ++ old.str)

/-- The 19 value-carrying column types (everything except the `JsonMap`
flatten sentinel and the `Unknown*` error sentinels). -/
def valueCarrying : List ColumnType :=
  [.Null, .Boolean, .Utinyint, .Usmallint, .Uinteger, .Ubigint,
   .Tinyint, .Smallint, .Integer, .Bigint, .Hugeint, .Float, .Double,
   .Date, .Time, .Timestamp, .Uuid, .Varchar, .Json]

/-- The unsigned integer column types. -/
def unsignedInts : List ColumnType := [.Utinyint, .Usmallint, .Uinteger, .Ubigint]

/-- The signed integer column types. -/
def signedInts : List ColumnType := [.Tinyint, .Smallint, .Integer, .Bigint, .Hugeint]

/-- Modelled from the spec (§3): the inclusive integer range of each integer
column type, exactly the bounds stated in the source comments on the
`ColumnType` constants. -/
def intRange : ColumnType → Option (Int × Int)
  | .Utinyint => some (0, 255)
  | .Usmallint => some (0, 65535)
  | .Uinteger => some (0, 4294967295)
  | .Ubigint => some (0, 18446744073709551615)
  | .Tinyint => some (-128, 127)
  | .Smallint => some (-32768, 32767)
  | .Integer => some (-2147483648, 2147483647)
  | .Bigint => some (-9223372036854775808, 9223372036854775807)
  | .Hugeint => some (-170141183460469231731687303715884105727, 170141183460469231731687303715884105727)
  | _ => none

/-- `t` is an integer column type whose range contains the interval
`[lo, hi]`. -/
def coversInterval (t : ColumnType) (lo hi : Int) : Bool :=
  match intRange t with
  | some (a, b) => a ≤ lo ∧ hi ≤ b
  | none => false

/-- The integer column types ordered by range width (narrowest first), the
order in which a smallest covering type is searched. -/
def intTypesByWidth : List ColumnType :=
  [.Utinyint, .Tinyint, .Usmallint, .Smallint, .Uinteger, .Integer, .Ubigint, .Bigint, .Hugeint]

/-- Modelled from the spec (§4.1.2, cross-sign widening): the smallest column
type whose range contains the union of the two source ranges. -/
def smallestCovering (a b : ColumnType) : Option ColumnType :=
  match intRange a, intRange b with
  | some (la, ha), some (lb, hb) =>
    intTypesByWidth.find? (fun t => coversInterval t (min la lb) (max ha hb))
  | _, _ => none

/-- The range of `r` contains the union of the ranges of `a` and `b` (all
three must be integer column types). -/
def coversUnionOf (r a b : ColumnType) : Bool :=
  match intRange a, intRange b with
  | some (la, ha), some (lb, hb) => coversInterval r (min la lb) (max ha hb)
  | _, _ => false

/-- C1 (counterexample): `PromoteTo` does not always return the smallest
column type whose range contains the union of the two source ranges:
`Smallint`'s own range `[-32768, 32767]` already contains the union of the
`Utinyint` range `[0, 255]` and the `Smallint` range, so the smallest
covering type of the pair `(Utinyint, Smallint)` is `Smallint`, yet
`PromoteTo Utinyint Smallint` returns `Integer`. -/
theorem promoteTo_not_smallest_covering :
    smallestCovering .Utinyint .Smallint = some .Smallint ∧
    ColumnType.PromoteTo .Utinyint .Smallint = .ok .Integer ∧
    (ColumnType.Smallint) ≠ .Integer := by decide

/-- C1 (amended): for every pair of integer column types whose signs differ,
`PromoteTo` succeeds and returns an integer column type whose range contains
the union of the two source ranges (an upper bound in the lattice, though not
always the least one); moreover the quoted examples hold exactly:
`PromoteTo Utinyint Tinyint = Smallint`, `PromoteTo Utinyint Smallint =
Integer`, and `PromoteTo Ubigint t = Hugeint` for every signed integer
type `t`. -/
theorem promoteTo_cross_sign_covers :
    (∀ old ∈ unsignedInts, ∀ given ∈ signedInts,
      ∃ r, ColumnType.PromoteTo old given = .ok r ∧ coversUnionOf r old given = true) ∧
    (∀ old ∈ signedInts, ∀ given ∈ unsignedInts,
      ∃ r, ColumnType.PromoteTo old given = .ok r ∧ coversUnionOf r old given = true) ∧
    ColumnType.PromoteTo .Utinyint .Tinyint = .ok .Smallint ∧
    ColumnType.PromoteTo .Utinyint .Smallint = .ok .Integer ∧
    (∀ t ∈ signedInts, ColumnType.PromoteTo .Ubigint t = .ok .Hugeint) := by
  refine ⟨?_, ?_, ?_, ?_, ?_⟩ <;> decide

/-- C1 (witness): the amended cross-sign covering statement applied at the
concrete pair `(Utinyint, Tinyint)` and at `(Ubigint, Bigint)`. -/
theorem promoteTo_cross_sign_covers_witness :
    (∃ r, ColumnType.PromoteTo .Utinyint .Tinyint = .ok r ∧
      coversUnionOf r .Utinyint .Tinyint = true) ∧
    ColumnType.PromoteTo .Ubigint .Bigint = .ok .Hugeint :=
  ⟨promoteTo_cross_sign_covers.1 .Utinyint (by decide) .Tinyint (by decide),
   promoteTo_cross_sign_covers.2.2.2.2 .Bigint (by decide)⟩

/-- C2: `PromoteTo` satisfies every representative vector of the spec's
promotion matrix, including the unsigned-versus-signed rows, the
`Float`/`Double` against `Hugeint` rows, the temporal-fusion rows, the
`Boolean` rows, and the `Uuid`/`Json` rows against every other
value-carrying type. -/
theorem promoteTo_matrix_vectors :
    ColumnType.PromoteTo .Utinyint .Tinyint = .ok .Smallint ∧
    ColumnType.PromoteTo .Utinyint .Smallint = .ok .Integer ∧
    ColumnType.PromoteTo .Utinyint .Integer = .ok .Bigint ∧
    ColumnType.PromoteTo .Utinyint .Bigint = .ok .Hugeint ∧
    ColumnType.PromoteTo .Usmallint .Tinyint = .ok .Integer ∧
    ColumnType.PromoteTo .Uinteger .Tinyint = .ok .Bigint ∧
    ColumnType.PromoteTo .Ubigint .Tinyint = .ok .Hugeint ∧
    ColumnType.PromoteTo .Float .Hugeint = .ok .Varchar ∧
    ColumnType.PromoteTo .Double .Hugeint = .ok .Varchar ∧
    ColumnType.PromoteTo .Date .Time = .ok .Timestamp ∧
    ColumnType.PromoteTo .Time .Date = .ok .Timestamp ∧
    ColumnType.PromoteTo .Date .Timestamp = .ok .Timestamp ∧
    ColumnType.PromoteTo .Boolean .Utinyint = .ok .Utinyint ∧
    ColumnType.PromoteTo .Boolean .Date = .ok .Varchar ∧
    (∀ x ∈ valueCarrying, x ≠ .Null → x ≠ .Uuid →
      ColumnType.PromoteTo .Uuid x = .ok .Varchar) ∧
    (∀ x ∈ valueCarrying, x ≠ .Null → x ≠ .Json →
      ColumnType.PromoteTo .Json x = .ok .Varchar) := by
  refine ⟨?_, ?_, ?_, ?_, ?_, ?_, ?_, ?_, ?_, ?_, ?_, ?_, ?_, ?_, ?_, ?_⟩ <;> decide

/-- C2 (witness): the `Uuid` and `Json` rows of the matrix applied at the
concrete value-carrying type `Boolean`. -/
theorem promoteTo_matrix_vectors_witness :
    ColumnType.PromoteTo .Uuid .Boolean = .ok .Varchar ∧
    ColumnType.PromoteTo .Json .Boolean = .ok .Varchar :=
  ⟨promoteTo_matrix_vectors.2.2.2.2.2.2.2.2.2.2.2.2.2.2.1
      .Boolean (by decide) (by decide) (by decide),
   promoteTo_matrix_vectors.2.2.2.2.2.2.2.2.2.2.2.2.2.2.2
      .Boolean (by decide) (by decide) (by decide)⟩

/-- C3: over the 19 value-carrying column types, `Null` is a left and right
identity of `PromoteTo`, `PromoteTo` is idempotent, and `Varchar` absorbs on
both sides. -/
theorem promoteTo_identities :
    ∀ t ∈ valueCarrying,
      ColumnType.PromoteTo .Null t = .ok t ∧
      ColumnType.PromoteTo t .Null = .ok t ∧
      ColumnType.PromoteTo t t = .ok t ∧
      ColumnType.PromoteTo .Varchar t = .ok .Varchar ∧
      ColumnType.PromoteTo t .Varchar = .ok .Varchar := by decide

/-- C3 (witness): the identity and absorption laws applied at the concrete
value-carrying type `Date`. -/
theorem promoteTo_identities_witness :
    ColumnType.PromoteTo .Null .Date = .ok .Date ∧
    ColumnType.PromoteTo .Date .Null = .ok .Date ∧
    ColumnType.PromoteTo .Date .Date = .ok .Date ∧
    ColumnType.PromoteTo .Varchar .Date = .ok .Varchar ∧
    ColumnType.PromoteTo .Date .Varchar = .ok .Varchar :=
  promoteTo_identities .Date (by decide)

/-- C4: `PromoteTo` is total and closed over the value-carrying enumeration:
for every pair drawn from the 19 value-carrying types it returns a successful
result that is itself value-carrying; the error branch is unreachable under
this precondition. -/
theorem promoteTo_total_closed :
    ∀ old ∈ valueCarrying, ∀ given ∈ valueCarrying,
      ∃ r, ColumnType.PromoteTo old given = .ok r ∧ r ∈ valueCarrying := by decide

/-- C4 (witness): totality and closure applied at the concrete pair
`(Float, Time)`. -/
theorem promoteTo_total_closed_witness :
    ∃ r, ColumnType.PromoteTo .Float .Time = .ok r ∧ r ∈ valueCarrying :=
  promoteTo_total_closed .Float (by decide) .Time (by decide)

/-- Embedding of `typeFromString`: the column type inferred from a text
value, decided purely by length and separator positions (the source indexes
bytes; the embedding indexes characters, which agree on ASCII input). -/
def typeFromString (v : String) : ColumnType :=
  if v.data.length = 10 ∧ v.data.getD 4 ' ' = '-' ∧ v.data.getD 7 ' ' = '-' then
    .Date
  else if v.data.length = 8 ∧ v.data.getD 2 ' ' = ':' ∧ v.data.getD 5 ' ' = ':' then
    .Time
  else if (v.data.length = 12 ∨ v.data.length = 15) ∧ v.data.getD 2 ' ' = ':' ∧
      v.data.getD 5 ' ' = ':' ∧ v.data.getD 8 ' ' = '.' then
    .Time
  else if v.data.length = 19 ∧ v.data.getD 4 ' ' = '-' ∧ v.data.getD 7 ' ' = '-' ∧
      v.data.getD 10 ' ' = ' ' ∧ v.data.getD 13 ' ' = ':' ∧ v.data.getD 16 ' ' = ':' then
    .Timestamp
  else if (v.data.length = 23 ∨ v.data.length = 26) ∧ v.data.getD 4 ' ' = '-' ∧
      v.data.getD 7 ' ' = '-' ∧ v.data.getD 10 ' ' = ' ' ∧ v.data.getD 13 ' ' = ':' ∧
      v.data.getD 16 ' ' = ':' ∧ v.data.getD 19 ' ' = '.' then
    .Timestamp
  else
    .Varchar

/-- C10: `typeFromString` checks only length and separator positions, never
digit content: every string of length 10 with dashes at indices 4 and 7
infers `Date`, and every string of length 8 with colons at indices 2 and 5
infers `Time`, whatever the remaining characters are. -/
theorem typeFromString_positional :
    (∀ v : String, v.data.length = 10 → v.data.getD 4 ' ' = '-' → v.data.getD 7 ' ' = '-' →
      typeFromString v = .Date) ∧
    (∀ v : String, v.data.length = 8 → v.data.getD 2 ' ' = ':' → v.data.getD 5 ' ' = ':' →
      typeFromString v = .Time) := by
  constructor
  · intro v h1 h2 h3
    simp [typeFromString, h1, h2, h3]
    exact ⟨by rw [← List.getD_eq_getElem _ ' ' (by omega)]; exact h2,
           by rw [← List.getD_eq_getElem _ ' ' (by omega)]; exact h3⟩
  · intro v h1 h2 h3
    simp [typeFromString, h1, h2, h3]
    exact ⟨by rw [← List.getD_eq_getElem _ ' ' (by omega)]; exact h2,
           by rw [← List.getD_eq_getElem _ ' ' (by omega)]; exact h3⟩

/-- C10 (witness): the positional inference applied at the non-digit
examples `abcd-ef-gh` (inferring `Date`) and `ab:cd:ef` (inferring
`Time`). -/
theorem typeFromString_positional_witness :
    typeFromString "abcd-ef-gh" = .Date ∧ typeFromString "ab:cd:ef" = .Time :=
  ⟨typeFromString_positional.1 "abcd-ef-gh" (by decide) (by decide) (by decide),
   typeFromString_positional.2 "ab:cd:ef" (by decide) (by decide) (by decide)⟩

/-- Embedding of `typeFromInt64`: the narrowest integer column type for a
signed 64-bit value, by the source's cascade of range checks. -/
def typeFromInt64 (v : Int) : ColumnType :=
  if 0 ≤ v ∧ v ≤ 255 then .Utinyint
  else if 0 ≤ v ∧ v ≤ 65535 then .Usmallint
  else if 0 ≤ v ∧ v ≤ 4294967295 then .Uinteger
  else if 0 ≤ v then .Ubigint
  else if -128 ≤ v ∧ v ≤ -1 then .Tinyint
  else if -32768 ≤ v ∧ v ≤ -129 then .Smallint
  else if -2147483648 ≤ v ∧ v ≤ -32769 then .Integer
  else if v ≤ -2147483649 then .Bigint
  else .UnknownInt

/-! ### Go standard-library helpers

Models of the `strings` and `strconv` functions the parsers use.  Go strings
are byte sequences; these models work on characters, which coincides on the
ASCII data the parsers handle. -/

/-- The ASCII whitespace characters recognised by Go `unicode.IsSpace`. -/
def isGoSpace (c : Char) : Bool :=
  c = ' ' || c = '\t' || c = '\n' || c = '\r' || c = Char.ofNat 11 || c = Char.ofNat 12

/-- Accumulator loop of `goFields`. -/
def goFieldsAux : List Char → List Char → List String
  | [], acc => if acc.isEmpty then [] else [String.mk acc.reverse]
  | c :: cs, acc =>
    if isGoSpace c then
      if acc.isEmpty then goFieldsAux cs [] else String.mk acc.reverse :: goFieldsAux cs []
    else goFieldsAux cs (c :: acc)

/-- Model of `strings.Fields`: split around runs of whitespace. -/
def goFields (s : String) : List String := goFieldsAux s.data []

/-- Model of `strings.TrimSpace`. -/
def goTrimSpace (s : String) : String :=
  String.mk (((s.data.dropWhile isGoSpace).reverse.dropWhile isGoSpace).reverse)

/-- Index loop of `goIndexOfChar`. -/
def goIndexOfCharAux (c : Char) : List Char → Nat → Option Nat
  | [], _ => none
  | x :: xs, i => if x = c then some i else goIndexOfCharAux c xs (i + 1)

/-- Model of `strings.Index` with a one-character needle (`none` stands for
the Go result `-1`). -/
def goIndexOfChar (s : String) (c : Char) : Option Nat := goIndexOfCharAux c s.data 0

/-- Index loop of `goLastIndexOfChar`. -/
def goLastIndexOfCharAux (c : Char) : List Char → Nat → Option Nat → Option Nat
  | [], _, best => best
  | x :: xs, i, best => goLastIndexOfCharAux c xs (i + 1) (if x = c then some i else best)

/-- Model of `strings.LastIndex` with a one-character needle. -/
def goLastIndexOfChar (s : String) (c : Char) : Option Nat :=
  goLastIndexOfCharAux c s.data 0 none

/-- Model of the Go slice `s[i:j]`. -/
def goSlice (s : String) (i j : Nat) : String := String.mk ((s.data.drop i).take (j - i))

/-- Model of the Go slice `s[i:]`. -/
def goSliceFrom (s : String) (i : Nat) : String := String.mk (s.data.drop i)

/-- Model of the Go slice `s[:j]`. -/
def goSliceTo (s : String) (j : Nat) : String := String.mk (s.data.take j)

/-- Model of `strings.HasPrefix` with a one-character needle. -/
def goStartsWithCh (s : String) (c : Char) : Bool :=
  match s.data with
  | [] => false
  | x :: _ => x = c

/-- Model of `strings.HasSuffix` with a one-character needle. -/
def goEndsWithCh (s : String) (c : Char) : Bool :=
  match s.data.getLast? with
  | none => false
  | some x => x = c

/-- Model of `strings.Join` restricted to the way the source uses it. -/
def goJoin (parts : List String) (sep : String) : String := String.intercalate sep parts

/-- Split loop of `goSplitOnCh`. -/
def goSplitOnChAux (sep : Char) : List Char → List Char → List String
  | [], acc => [String.mk acc.reverse]
  | c :: cs, acc =>
    if c = sep then String.mk acc.reverse :: goSplitOnChAux sep cs []
    else goSplitOnChAux sep cs (c :: acc)

/-- Model of `strings.Split` with a one-character separator. -/
def goSplitOnCh (s : String) (sep : Char) : List String := goSplitOnChAux sep s.data []

/-- Digit-accumulation loop shared by the `strconv` models. -/
def digitsValAux : List Char → Nat → Option Nat
  | [], acc => some acc
  | c :: cs, acc => if c.isDigit then digitsValAux cs (acc * 10 + (c.toNat - 48)) else none

/-- The value of a non-empty all-digit character list. -/
def digitsVal (cs : List Char) : Option Nat :=
  if cs.isEmpty then none else digitsValAux cs 0

/-- Model of `strconv.Atoi` (= `ParseInt` base 10, 64-bit): optional sign,
at least one digit, nothing else, value within the signed 64-bit range. -/
def goAtoi (s : String) : Option Int :=
  match s.data with
  | '+' :: cs => (digitsVal cs).bind fun n =>
      if n ≤ 9223372036854775807 then some (n : Int) else none
  | '-' :: cs => (digitsVal cs).bind fun n =>
      if n ≤ 9223372036854775808 then some (-(n : Int)) else none
  | cs => (digitsVal cs).bind fun n =>
      if n ≤ 9223372036854775807 then some (n : Int) else none

/-- Model of `strconv.Atoi` as used with a discarded error (the RFC5424
`version` field): the syntax-error result is 0 and the out-of-range result is
the clamped 64-bit bound, as Go returns them alongside the error. -/
def goAtoiLoose (s : String) : Int :=
  match s.data with
  | '+' :: cs =>
    match digitsVal cs with
    | none => 0
    | some n => if n ≤ 9223372036854775807 then (n : Int) else 9223372036854775807
  | '-' :: cs =>
    match digitsVal cs with
    | none => 0
    | some n => if n ≤ 9223372036854775808 then (-(n : Int)) else -9223372036854775808
  | cs =>
    match digitsVal cs with
    | none => 0
    | some n => if n ≤ 9223372036854775807 then (n : Int) else 9223372036854775807

/-- The pieces of a decimal floating-point literal with value
`(intPart ++ fracPart as an integer) * 10 ^ (exp - fracPart.length)`,
negated when `neg` is set. -/
structure DecParts where
  neg : Bool
  intPart : List Char
  fracPart : List Char
  exp : Int
deriving DecidableEq, Repr

/-- Parse a decimal floating-point literal in the syntax accepted by
`strconv.ParseFloat`: optional sign, digits with at most one point (at least
one digit overall), optional integer exponent.  Hexadecimal floats and digit
underscores, which no log field uses, are not modelled. -/
def parseDecLit (cs0 : List Char) : Option DecParts :=
  let signed := match cs0 with
    | '+' :: r => (false, r)
    | '-' :: r => (true, r)
    | r => (false, r)
  let ip := signed.2.takeWhile Char.isDigit
  let cs2 := signed.2.dropWhile Char.isDigit
  let fracAndRest := match cs2 with
    | '.' :: r => (r.takeWhile Char.isDigit, r.dropWhile Char.isDigit)
    | r => ([], r)
  let fp := fracAndRest.1
  if ip.isEmpty ∧ fp.isEmpty then none
  else
    match fracAndRest.2 with
    | [] => some ⟨signed.1, ip, fp, 0⟩
    | e :: r =>
      if e = 'e' ∨ e = 'E' then
        let esigned : Int × List Char := match r with
          | '+' :: rr => (1, rr)
          | '-' :: rr => (-1, rr)
          | rr => (1, rr)
        match digitsVal esigned.2 with
        | some n => some ⟨signed.1, ip, fp, esigned.1 * (n : Int)⟩
        | none => none
      else none

/-- Whether the absolute value of a parsed decimal literal is at most
`bm * 10 ^ be`, decided exactly on the decimal representation. -/
def decMagLE (d : DecParts) (bm : Nat) (be : Int) : Bool :=
  let mant := (digitsValAux (d.intPart ++ d.fracPart) 0).getD 0
  let e : Int := d.exp - (d.fracPart.length : Int)
  if mant = 0 then true
  else if e ≥ be then (mant : Int) * 10 ^ (e - be).toNat ≤ (bm : Int)
  else (mant : Int) ≤ (bm : Int) * 10 ^ (be - e).toNat

/-- Model of `strconv.ParseFloat` success: the literal is well-formed and its
magnitude does not overflow a `float64`.  The overflow bound is the exact
decimal `1.7976931348623157e308`; the rounding slack of the true binary
bound, never exercised by a log line, is not modelled. -/
def goParseFloatOk (s : String) : Bool :=
  let lower := s.data.map Char.toLower
  if lower = "inf".data ∨ lower = "+inf".data ∨ lower = "-inf".data ∨
      lower = "infinity".data ∨ lower = "+infinity".data ∨ lower = "-infinity".data ∨
      lower = "nan".data then true
  else
    match parseDecLit s.data with
    | none => false
    | some d => decMagLE d 17976931348623157 292

/-! ### JSON values and the `encoding/json` decoder model -/

/-- The opening curly bracket character. -/
def lbraceChar : Char := Char.ofNat 123

/-- The closing curly bracket character. -/
def rbraceChar : Char := Char.ofNat 125

mutual
/-- A decoded JSON value; numbers keep their literal text, as Go does under
`Decoder.UseNumber`. -/
inductive JValue where
  | jnull
  | jbool (b : Bool)
  | jnum (lit : String)
  | jstr (s : String)
  | jarr (xs : JArr)
  | jobj (fs : JObj)
deriving DecidableEq, Repr
/-- A list of JSON values (array elements). -/
inductive JArr where
  | anil
  | acons (v : JValue) (rest : JArr)
deriving DecidableEq, Repr
/-- The fields of a JSON object in document order. -/
inductive JObj where
  | onil
  | ocons (k : String) (v : JValue) (rest : JObj)
deriving DecidableEq, Repr
end

/-- Build a `JArr` from a list. -/
def JArr.ofList : List JValue → JArr
  | [] => .anil
  | v :: rest => .acons v (JArr.ofList rest)

/-- Build a `JObj` from an association list. -/
def JObj.ofList : List (String × JValue) → JObj
  | [] => .onil
  | (k, v) :: rest => .ocons k v (JObj.ofList rest)

/-- The fields of a `JObj` as an association list. -/
def JObj.toList : JObj → List (String × JValue)
  | .onil => []
  | .ocons k v rest => (k, v) :: JObj.toList rest

/-- Go map assignment on an association list: replace the value of an
existing key in place, otherwise append the new key. -/
def upsertAssoc {α : Type} (l : List (String × α)) (k : String) (v : α) : List (String × α) :=
  if l.any (fun p => p.1 = k) then l.map (fun p => if p.1 = k then (k, v) else p)
  else l ++ [(k, v)]

/-- Collapse duplicate keys the way filling a Go map does: the last value
wins, keys keep their first-occurrence position. -/
def dedupKeysLast {α : Type} (l : List (String × α)) : List (String × α) :=
  l.foldl (fun acc p => upsertAssoc acc p.1 p.2) []

/-- JSON insignificant whitespace. -/
def jsonSkipWs (cs : List Char) : List Char :=
  cs.dropWhile (fun c => c = ' ' || c = '\t' || c = '\n' || c = '\r')

/-- The value of one hexadecimal digit. -/
def jsonHexVal (c : Char) : Option Nat :=
  if c.isDigit then some (c.toNat - 48)
  else if 'a' ≤ c ∧ c ≤ 'f' then some (c.toNat - 87)
  else if 'A' ≤ c ∧ c ≤ 'F' then some (c.toNat - 55)
  else none

/-- The character of a `\uXXXX` escape; a lone surrogate becomes U+FFFD as
in Go (surrogate-pair combination, unused by the claims, is not modelled). -/
def jsonCharOfCode (n : Nat) : Char :=
  if n < 55296 ∨ (57344 ≤ n ∧ n < 1114112) then Char.ofNat n else Char.ofNat 65533

/-- Lex a JSON string body (after the opening quote): plain characters, the
simple escapes, `\uXXXX`; unescaped control characters and unterminated
strings fail, as in the Go scanner. -/
def jsonStringLit : List Char → Option (String × List Char)
  | [] => none
  | '"' :: rest => some ("", rest)
  | '\\' :: 'u' :: h1 :: h2 :: h3 :: h4 :: rest =>
    (match jsonHexVal h1, jsonHexVal h2, jsonHexVal h3, jsonHexVal h4 with
     | some a, some b, some c, some d =>
       (jsonStringLit rest).map (fun p =>
         (String.mk (jsonCharOfCode (((a * 16 + b) * 16 + c) * 16 + d) :: p.1.data), p.2))
     | _, _, _, _ => none)
  | '\\' :: e :: rest =>
    (match
      (if e = '"' then some '"'
       else if e = '\\' then some '\\'
       else if e = '/' then some '/'
       else if e = 'b' then some (Char.ofNat 8)
       else if e = 'f' then some (Char.ofNat 12)
       else if e = 'n' then some '\n'
       else if e = 'r' then some '\r'
       else if e = 't' then some '\t'
       else none) with
     | some ch => (jsonStringLit rest).map (fun p => (String.mk (ch :: p.1.data), p.2))
     | none => none)
  | c :: rest =>
    if c.toNat < 32 then none
    else (jsonStringLit rest).map (fun p => (String.mk (c :: p.1.data), p.2))

/-- Lex a JSON number literal: optional minus, `0` or a nonzero-led digit
run, optional fraction, optional exponent.  Returns the literal and the
remaining input. -/
def jsonNumLex (cs : List Char) : Option (List Char × List Char) :=
  let signed : List Char × List Char := match cs with
    | '-' :: r => (['-'], r)
    | r => ([], r)
  let intAndRest : Option (List Char × List Char) := match signed.2 with
    | '0' :: r => some (['0'], r)
    | c :: r =>
      if c.isDigit then some (c :: r.takeWhile Char.isDigit, r.dropWhile Char.isDigit)
      else none
    | [] => none
  match intAndRest with
  | none => none
  | some (ip, rest1) =>
    let fracAndRest : Option (List Char × List Char) := match rest1 with
      | '.' :: r =>
        let ds := r.takeWhile Char.isDigit
        if ds.isEmpty then none else some ('.' :: ds, r.dropWhile Char.isDigit)
      | r => some ([], r)
    match fracAndRest with
    | none => none
    | some (fp, rest2) =>
      let expAndRest : Option (List Char × List Char) := match rest2 with
        | e :: r =>
          if e = 'e' ∨ e = 'E' then
            let signedE : List Char × List Char := match r with
              | '+' :: rr => (['+'], rr)
              | '-' :: rr => (['-'], rr)
              | rr => ([], rr)
            let ds := signedE.2.takeWhile Char.isDigit
            if ds.isEmpty then none
            else some (e :: (signedE.1 ++ ds), signedE.2.dropWhile Char.isDigit)
          else some ([], e :: r)
        | [] => some ([], [])
      match expAndRest with
      | none => none
      | some (ep, rest3) => some (signed.1 ++ ip ++ fp ++ ep, rest3)

mutual
/-- Parse one JSON value, mirroring the Go scanner grammar.  The fuel bounds
the recursion depth; `goJsonDecodeOne` supplies enough for any input. -/
def jsonValue : Nat → List Char → Option (JValue × List Char)
  | 0, _ => none
  | fuel + 1, cs =>
    match jsonSkipWs cs with
    | [] => none
    | c :: rest =>
      if c = lbraceChar then jsonObjItems fuel rest true []
      else if c = '[' then jsonArrItems fuel rest true []
      else if c = '"' then (jsonStringLit rest).map (fun p => (.jstr p.1, p.2))
      else if c = 't' then
        match rest with
        | 'r' :: 'u' :: 'e' :: r => some (.jbool true, r)
        | _ => none
      else if c = 'f' then
        match rest with
        | 'a' :: 'l' :: 's' :: 'e' :: r => some (.jbool false, r)
        | _ => none
      else if c = 'n' then
        match rest with
        | 'u' :: 'l' :: 'l' :: r => some (.jnull, r)
        | _ => none
      else (jsonNumLex (c :: rest)).map (fun p => (.jnum (String.mk p.1), p.2))
/-- Parse the elements of a JSON array after its opening bracket. -/
def jsonArrItems : Nat → List Char → Bool → List JValue → Option (JValue × List Char)
  | 0, _, _, _ => none
  | fuel + 1, cs, first, acc =>
    match jsonSkipWs cs with
    | [] => none
    | c :: rest =>
      if first ∧ c = ']' then some (.jarr (JArr.ofList acc), rest)
      else
        match jsonValue fuel (c :: rest) with
        | none => none
        | some (v, cs2) =>
          match jsonSkipWs cs2 with
          | ',' :: cs3 => jsonArrItems fuel cs3 false (acc ++ [v])
          | ']' :: cs3 => some (.jarr (JArr.ofList (acc ++ [v])), cs3)
          | _ => none
/-- Parse the members of a JSON object after its opening bracket; duplicate
keys collapse as in a Go map (last value wins). -/
def jsonObjItems : Nat → List Char → Bool → List (String × JValue) →
    Option (JValue × List Char)
  | 0, _, _, _ => none
  | fuel + 1, cs, first, acc =>
    match jsonSkipWs cs with
    | [] => none
    | c :: rest =>
      if first ∧ c = rbraceChar then
        some (.jobj (JObj.ofList (dedupKeysLast acc)), rest)
      else if c = '"' then
        match jsonStringLit rest with
        | none => none
        | some (k, cs2) =>
          match jsonSkipWs cs2 with
          | ':' :: cs3 =>
            match jsonValue fuel cs3 with
            | none => none
            | some (v, cs4) =>
              match jsonSkipWs cs4 with
              | ',' :: cs5 => jsonObjItems fuel cs5 false (acc ++ [(k, v)])
              | x :: cs5 =>
                if x = rbraceChar then
                  some (.jobj (JObj.ofList (dedupKeysLast (acc ++ [(k, v)]))), cs5)
                else none
              | [] => none
          | _ => none
      else none
end

/-- Model of `json.Decoder.Decode` reading its first value: parse one JSON
value from the start of the input.  As in Go, input after a syntactically
complete first value is not examined by the first `Decode` call. -/
def goJsonDecodeOne (cs : List Char) : Option (JValue × List Char) :=
  jsonValue (2 * cs.length + 8) cs

mutual
/-- A Go `any` value as it occurs in a `Row`: the scalar kinds the parsers
produce, plus nested arrays and maps.  `vfloat` is a `float64` carried as
its decimal literal, `vnum` a `json.Number`, `vtime` a `time.Time`. -/
inductive Value where
  | vnull
  | vbool (b : Bool)
  | vint (i : Int)
  | vfloat (lit : String)
  | vnum (lit : String)
  | vstr (s : String)
  | vtime (t : String)
  | varr (xs : VList)
  | vmap (m : VMap)
deriving DecidableEq, Repr
/-- A Go `[]any`. -/
inductive VList where
  | lnil
  | lcons (v : Value) (rest : VList)
deriving DecidableEq, Repr
/-- A Go `map[string]any` in first-insertion order. -/
inductive VMap where
  | mnil
  | mcons (k : String) (v : Value) (rest : VMap)
deriving DecidableEq, Repr
end

/-- Build a `VMap` from an association list. -/
def VMap.ofList : List (String × Value) → VMap
  | [] => .mnil
  | (k, v) :: rest => .mcons k v (VMap.ofList rest)

/-- The entries of a `VMap` as an association list. -/
def VMap.toList : VMap → List (String × Value)
  | .mnil => []
  | .mcons k v rest => (k, v) :: VMap.toList rest

/-- The elements of a `VList` as a list. -/
def VList.toList : VList → List Value
  | .lnil => []
  | .lcons v rest => v :: VList.toList rest

mutual
/-- A decoded JSON value as the Go `any` produced by `Unmarshal`: objects
become maps, arrays become slices; a number becomes a `json.Number` under
`UseNumber` and a `float64` otherwise. -/
def jvalueToGo (useNumber : Bool) : JValue → Value
  | .jnull => .vnull
  | .jbool b => .vbool b
  | .jnum s => if useNumber then .vnum s else .vfloat s
  | .jstr s => .vstr s
  | .jarr xs => .varr (jarrToGo useNumber xs)
  | .jobj fs => .vmap (jobjToGo useNumber fs)
/-- Array elements of `jvalueToGo`. -/
def jarrToGo (useNumber : Bool) : JArr → VList
  | .anil => .lnil
  | .acons v rest => .lcons (jvalueToGo useNumber v) (jarrToGo useNumber rest)
/-- Object fields of `jvalueToGo`. -/
def jobjToGo (useNumber : Bool) : JObj → VMap
  | .onil => .mnil
  | .ocons k v rest => .mcons k (jvalueToGo useNumber v) (jobjToGo useNumber rest)
end

/-- A Go `Row` (`map[string]any`), modelled as an association list in
first-insertion order with unique keys. -/
abbrev Row := List (String × Value)

/-- Map assignment `row[k] = v`. -/
def rowInsert (r : Row) (k : String) (v : Value) : Row := upsertAssoc r k v

/-- Map lookup `row[k]`. -/
def rowGet (r : Row) (k : String) : Option Value :=
  (r.find? (fun p => p.1 = k)).map (fun p => p.2)

/-- The conversion the source applies to a top-level `json.Number`: an
integer if `Int64` parses it, a `float64` if `Float64` does, otherwise its
text. -/
def jsonNumberToGo (s : String) : Value :=
  match goAtoi s with
  | some i => .vint i
  | none => if goParseFloatOk s then .vfloat s else .vstr s

/-- Embedding of `parseJSON`: decode one JSON value from the line into a
`map[string]any` (which accepts an object, or the literal `null` leaving the
map empty), then convert top-level `json.Number` values. -/
def parseJSON (l : String) : Option Row :=
  match goJsonDecodeOne l.data with
  | none => none
  | some (v, _) =>
    match v with
    | .jobj fs =>
      some ((JObj.toList fs).foldl (fun r p =>
        rowInsert r p.1
          (match p.2 with
           | .jnum s => jsonNumberToGo s
           | other => jvalueToGo true other)) [])
    | .jnull => some []
    | _ => none

/-! ### The syslog, CLF, logfmt and Monolog detectors -/

/-- Embedding of `parseStructuredData`: whitespace-split the bracket
contents, keep a leading token containing `@` as `sd_id`, then record each
`key=value` token with one pair of surrounding quotes stripped. -/
def parseStructuredData (sd : String) : List (String × Value) :=
  let parts := goFields sd
  match parts with
  | [] => []
  | p0 :: rest =>
    let start : List (String × Value) × List String :=
      if p0.data.contains '@' then ([("sd_id", .vstr p0)], rest) else ([], p0 :: rest)
    start.2.foldl (fun acc part =>
      match goIndexOfChar part '=' with
      | none => acc
      | some eqIndex =>
        let key := goSliceTo part eqIndex
        let value := goSliceFrom part (eqIndex + 1)
        let value :=
          if value.data.length ≥ 2 ∧ value.data.getD 0 ' ' = '"' ∧
              value.data.getLast? = some '"' then
            goSlice value 1 (value.data.length - 1)
          else value
        upsertAssoc acc key (.vstr value)) start.1

/-- Embedding of `parseSyslog`: priority in angle brackets, then the RFC5424
branch (first remainder character a digit) or the RFC3164 branch. -/
def parseSyslog (l : String) : Option Row :=
  if ¬ goStartsWithCh l '<' then none
  else
    match goIndexOfChar l '>' with
    | none => none
    | some endPri =>
      match goAtoi (goSlice l 1 endPri) with
      | none => none
      | some priority =>
        let rest := goSliceFrom l (endPri + 1)
        let base : Row :=
          [("priority", .vint priority),
           ("facility", .vint (Int.tdiv priority 8)),
           ("severity", .vint (Int.tmod priority 8))]
        if rest.data.length > 0 ∧ (rest.data.getD 0 ' ').isDigit then
          let parts := goFields rest
          if parts.length < 7 then none
          else
            let header : Row :=
              [("version", .vint (goAtoiLoose (parts.getD 0 ""))),
               ("timestamp", .vstr (parts.getD 1 "")),
               ("hostname", .vstr (parts.getD 2 "")),
               ("app_name", .vstr (parts.getD 3 "")),
               ("procid", .vstr (parts.getD 4 "")),
               ("msgid", .vstr (parts.getD 5 ""))]
            let tail : Row :=
              match goIndexOfChar rest '[', goIndexOfChar rest ']' with
              | some sdStart, some sdEnd =>
                if sdEnd > sdStart then
                  [("structured_data",
                     .vmap (VMap.ofList (parseStructuredData (goSlice rest (sdStart + 1) sdEnd)))),
                   ("message", .vstr (goTrimSpace (goSliceFrom rest (sdEnd + 1))))]
                else
                  [("structured_data", .vmap .mnil),
                   ("message", .vstr (goTrimSpace rest))]
              | _, _ =>
                [("structured_data", .vmap .mnil),
                 ("message", .vstr (goTrimSpace rest))]
            some (base ++ header ++ tail)
        else
          let parts := goFields rest
          if parts.length < 4 then none
          else
            let timestamp := parts.getD 0 "" ++ " " ++ parts.getD 1 "" ++ " " ++ parts.getD 2 ""
            let hostname := parts.getD 3 ""
            let remaining := goJoin (parts.drop 4) " "
            match goIndexOfChar remaining ':' with
            | none => none
            | some colon =>
              some (base ++
                [("timestamp", .vstr timestamp),
                 ("hostname", .vstr hostname),
                 ("tag", .vstr (goTrimSpace (goSliceTo remaining colon))),
                 ("message", .vstr (goTrimSpace (goSliceFrom remaining (colon + 1))))])

/-- Request-accumulation loop of `parseCLF`: starting after the request's
opening token, append tokens until one ends with a quote (or tokens run
out), returning the accumulated text and the index of the last token
consumed. -/
def clfScan : List String → Nat → String → String × Nat
  | [], idx, req => (req, idx)
  | p :: rest, idx, req =>
    let req2 := req ++ " " ++ p
    if goEndsWithCh p '"' then (req2, idx + 1) else clfScan rest (idx + 1) req2

/-- Closing-quote accumulation loop of `parseQuotedFieldsFromSlice`. -/
def gqfAccum : String → List String → String × List String
  | acc, [] => (acc, [])
  | acc, np :: rest =>
    let acc2 := acc ++ " " ++ np
    if goEndsWithCh np '"' then (acc2, rest) else gqfAccum acc2 rest

/-- Embedding of `parseQuotedFieldsFromSlice`; the fuel bounds the outer
loop and `length + 1` always suffices since every step consumes a token. -/
def goQuotedFieldsAux : Nat → List String → List String
  | 0, _ => []
  | _ + 1, [] => []
  | fuel + 1, p :: rest =>
    if goStartsWithCh p '"' then
      let qsRest : String × List String :=
        if goEndsWithCh p '"' then (p, rest) else gqfAccum p rest
      let emitted : List String :=
        if qsRest.1.data.length ≥ 2 ∧ qsRest.1.data.getD 0 ' ' = '"' ∧
            qsRest.1.data.getLast? = some '"' then
          if qsRest.1.data.length = 2 then [""]
          else [goSlice qsRest.1 1 (qsRest.1.data.length - 1)]
        else []
      emitted ++ goQuotedFieldsAux fuel qsRest.2
    else p :: goQuotedFieldsAux fuel rest

/-- Quoted trailing fields (referer, user agent, forwarded-for) of a CLF
line. -/
def goQuotedFields (parts : List String) : List String :=
  goQuotedFieldsAux (parts.length + 1) parts

/-- The request fields of a CLF row: split the unquoted request text on
spaces, emitting method, path and protocol (defaulting the protocol when
only two parts are present), or the raw text under `request`. -/
def clfRequestRow (requestParts : List String) (request : String) : Row :=
  if requestParts.length ≥ 3 then
    [("method", .vstr (requestParts.getD 0 "")),
     ("path", .vstr (requestParts.getD 1 "")),
     ("protocol", .vstr (requestParts.getD 2 ""))]
  else if requestParts.length ≥ 2 then
    [("method", .vstr (requestParts.getD 0 "")),
     ("path", .vstr (requestParts.getD 1 "")),
     ("protocol", .vstr "HTTP/1.0")]
  else [("request", .vstr request)]

/-- Embedding of `parseCLF`: whitespace-tokenise, locate the quoted request,
read host/logname/user, the (possibly bracketed) timestamp, the request
method/path/protocol, status, response size and trailing quoted fields,
failing exactly where the source returns nil. -/
def parseCLF (l : String) : Option Row :=
  let parts := goFields l
  if parts.length < 6 then none
  else
    match parts.findIdx? (fun p => goStartsWithCh p '"') with
    | none => none
    | some requestIndex =>
      if requestIndex < 3 then none
      else
        let hostPart : Row :=
          if parts.getD 0 "" ≠ "-" then [("remote_host", .vstr (parts.getD 0 ""))] else []
        let lognamePart : Row :=
          if parts.length > 1 ∧ parts.getD 1 "" ≠ "-" then
            [("remote_logname", .vstr (parts.getD 1 ""))]
          else []
        let userTsPart : Row :=
          if parts.length > 3 ∧ goStartsWithCh (parts.getD 3 "") '[' then
            (if parts.length > 2 ∧ parts.getD 2 "" ≠ "-" then
              [("remote_user", .vstr (parts.getD 2 ""))]
            else []) ++
            (if requestIndex > 3 then
              let ts := goJoin ((parts.drop 3).take (requestIndex - 3)) " "
              let ts :=
                if ts.data.length ≥ 2 ∧ ts.data.getD 0 ' ' = '[' ∧
                    ts.data.getLast? = some ']' then
                  goSlice ts 1 (ts.data.length - 1)
                else ts
              [("timestamp", .vstr ts)]
            else [])
          else
            (if requestIndex > 2 then
              [("timestamp", .vstr (goJoin ((parts.drop 2).take (requestIndex - 2)) " "))]
            else [])
        let request0 := parts.getD requestIndex ""
        let reqScan : String × Nat :=
          if goEndsWithCh request0 '"' then (request0, requestIndex)
          else clfScan (parts.drop (requestIndex + 1)) requestIndex request0
        let actualEnd := reqScan.2
        let request :=
          if reqScan.1.data.length ≥ 2 ∧ reqScan.1.data.getD 0 ' ' = '"' ∧
              reqScan.1.data.getLast? = some '"' then
            goSlice reqScan.1 1 (reqScan.1.data.length - 1)
          else reqScan.1
        let reqPart : Row := clfRequestRow (goSplitOnCh request ' ') request
        let statusIndex := actualEnd + 1
        let statusPart : Row :=
          if statusIndex < parts.length then
            match goAtoi (parts.getD statusIndex "") with
            | some status => [("status", .vint status)]
            | none => []
          else []
        let sizeIndex := actualEnd + 2
        let sizeDecision : Option Row :=
          if sizeIndex < parts.length ∧ parts.getD sizeIndex "" ≠ "-" then
            some (match goAtoi (parts.getD sizeIndex "") with
              | some size => [("response_size", .vint size)]
              | none => [])
          else if sizeIndex ≥ parts.length then
            if parts.length > 3 ∧ ¬ goStartsWithCh (parts.getD 3 "") '[' then
              some [("response_size", .vint 0)]
            else none
          else some [("response_size", .vint 0)]
        match sizeDecision with
        | none => none
        | some sizePart =>
          let remainingStart := actualEnd + 3
          let trailingPart : Row :=
            if remainingStart < parts.length then
              let qf := goQuotedFields (parts.drop remainingStart)
              (if qf.length > 0 ∧ qf.getD 0 "" ≠ "-" ∧ qf.getD 0 "" ≠ "" then
                [("referer", .vstr (qf.getD 0 ""))]
              else []) ++
              (if qf.length > 1 ∧ qf.getD 1 "" ≠ "-" ∧ qf.getD 1 "" ≠ "" then
                [("user_agent", .vstr (qf.getD 1 ""))]
              else []) ++
              (if qf.length > 2 ∧ qf.getD 2 "" ≠ "-" then
                [("forwarded_for", .vstr (qf.getD 2 ""))]
              else [])
            else []
          -- The Go Row is an unordered map; the request fields, present in
          -- every successful parse, are listed first.
          some (reqPart ++ hostPart ++ lognamePart ++ userTsPart ++
                statusPart ++ sizePart ++ trailingPart)

/-- Numeric coercion of a logfmt value: integer parse, then float parse,
otherwise text. -/
def logfmtCoerce (value : String) : Value :=
  match goAtoi value with
  | some i => .vint i
  | none => if goParseFloatOk value then .vfloat value else .vstr value

/-- Multi-token quoted-value accumulation loop of `parseLogfmt`: append
tokens until one ends with a quote, dropping that closing quote. -/
def logfmtAccum : String → List String → String × List String
  | v, [] => (v, [])
  | v, np :: rest =>
    if goEndsWithCh np '"' then (v ++ " " ++ goSliceTo np (np.data.length - 1), rest)
    else logfmtAccum (v ++ " " ++ np) rest

/-- Key-value loop of `parseLogfmt`; the fuel bounds iterations and
`length + 1` always suffices since every step consumes a token. -/
def logfmtLoop : Nat → List String → Row → Row
  | 0, _, acc => acc
  | _ + 1, [], acc => acc
  | fuel + 1, p :: rest, acc =>
    match goIndexOfChar p '=' with
    | none => logfmtLoop fuel rest acc
    | some eqIndex =>
      let key := goSliceTo p eqIndex
      let value := goSliceFrom p (eqIndex + 1)
      if goStartsWithCh value '"' then
        if goEndsWithCh value '"' ∧ value.data.length > 1 then
          logfmtLoop fuel rest
            (rowInsert acc key (logfmtCoerce (goSlice value 1 (value.data.length - 1))))
        else
          let vRest := logfmtAccum (goSliceFrom value 1) rest
          logfmtLoop fuel vRest.2 (rowInsert acc key (logfmtCoerce vRest.1))
      else logfmtLoop fuel rest (rowInsert acc key (logfmtCoerce value))

/-- Embedding of `parseLogfmt`: succeed only when at least one `key=value`
pair was accepted. -/
def parseLogfmt (l : String) : Option Row :=
  let parts := goFields l
  if parts.length = 0 then none
  else
    let result := logfmtLoop (parts.length + 1) parts []
    if result.length > 0 then some result else none

/-- Model of `json.Unmarshal` into a `map[string]any`: the entire input must
be one JSON value (trailing non-whitespace is an error, unlike the streaming
decoder), and that value must be an object, or `null` leaving the map
empty. -/
def goUnmarshalObj (s : String) : Option (List (String × JValue)) :=
  match goJsonDecodeOne s.data with
  | none => none
  | some (v, rest) =>
    if (jsonSkipWs rest).isEmpty then
      match v with
      | .jobj fs => some (JObj.toList fs)
      | .jnull => some []
      | _ => none
    else none

/-- Embedding of `parseMonolog`: bracketed timestamp, `channel.level:`
header with a mandatory space after the colon, optional trailing JSON object
split at the last opening curly bracket. -/
def parseMonolog (l : String) : Option Row :=
  if ¬ goStartsWithCh l '[' then none
  else
    match goIndexOfChar l ']' with
    | none => none
    | some endTime =>
      let timestamp := goSlice l 1 endTime
      let rest := goTrimSpace (goSliceFrom l (endTime + 1))
      if rest = "" then none
      else
        match goIndexOfChar rest ':' with
        | none => none
        | some colonIndex =>
          let channelLevel := goTrimSpace (goSliceTo rest colonIndex)
          if channelLevel = "" then none
          else
            let parts := goSplitOnCh channelLevel '.'
            if parts.length ≠ 2 ∨ parts.getD 0 "" = "" ∨ parts.getD 1 "" = "" then none
            else
              let base : Row :=
                [("timestamp", .vstr timestamp),
                 ("channel", .vstr (parts.getD 0 "")),
                 ("level", .vstr (parts.getD 1 ""))]
              let messageAndJSON := goTrimSpace (goSliceFrom rest (colonIndex + 1))
              if messageAndJSON = "" then none
              else if colonIndex + 1 ≥ rest.data.length ∨
                  rest.data.getD (colonIndex + 1) ' ' ≠ ' ' then none
              else
                let withJson : Option (Row × String) :=
                  match goLastIndexOfChar messageAndJSON lbraceChar with
                  | none => none
                  | some braceIndex =>
                    if goEndsWithCh messageAndJSON rbraceChar then
                      let jsonPart := goSliceFrom messageAndJSON braceIndex
                      let messagePart := goTrimSpace (goSliceTo messageAndJSON braceIndex)
                      if ¬ goEndsWithCh messagePart ':' then
                        match goUnmarshalObj jsonPart with
                        | some fields =>
                          some (fields.foldl (fun r p => rowInsert r p.1 (jvalueToGo false p.2)) base,
                                messagePart)
                        | none => none
                      else none
                    else none
                match withJson with
                | some merged => some (rowInsert merged.1 "message" (.vstr merged.2))
                | none => some (rowInsert base "message" (.vstr messageAndJSON))

/-- Tail of an ANSI colour escape after `ESC [`: a run of digits and
semicolons closed by `m`. -/
def ansiTail : List Char → Option (List Char)
  | [] => none
  | c :: rest =>
    if c = 'm' then some rest
    else if c.isDigit ∨ c = ';' then ansiTail rest
    else none

/-- Loop of `stripAnsiCodes`; the fuel bounds iterations and `length + 1`
always suffices since every step consumes a character. -/
def stripAnsiAux : Nat → List Char → List Char
  | 0, _ => []
  | _ + 1, [] => []
  | fuel + 1, c :: rest =>
    if c = Char.ofNat 27 then
      match rest with
      | b :: rest2 =>
        if b = '[' then
          match ansiTail rest2 with
          | some rest3 => stripAnsiAux fuel rest3
          | none => c :: stripAnsiAux fuel rest
        else c :: stripAnsiAux fuel rest
      | [] => [c]
    else c :: stripAnsiAux fuel rest

/-- Embedding of `stripAnsiCodes`: remove every `ESC [ (digits or
semicolons)* m` sequence. -/
def stripAnsiCodes (s : String) : String :=
  String.mk (stripAnsiAux (s.data.length + 1) s.data)

/-- Embedding of `ParseLineToValues`: the detector cascade in its fixed
priority order, with the ANSI-stripped message fallback. -/
def ParseLineToValues (l : String) : Row :=
  if l = "" then []
  else
    match parseJSON l with
    | some result => result
    | none =>
      match parseSyslog l with
      | some result => result
      | none =>
        match parseCLF l with
        | some result => result
        | none =>
          match parseLogfmt l with
          | some result => result
          | none =>
            match parseMonolog l with
            | some result => result
            | none => [("message", .vstr (stripAnsiCodes l))]

/-! ### Parser lemmas and claims about the cascade -/

/-- Go map assignment never empties a map. -/
theorem upsertAssoc_ne_nil {α : Type} (l : List (String × α)) (k : String) (v : α) :
    upsertAssoc l k v ≠ [] := by
  unfold upsertAssoc
  split
  · intro hc
    rename_i hany
    rw [List.map_eq_nil_iff] at hc
    subst hc
    simp at hany
  · intro hc
    simp at hc

/-- The request fields of a CLF row are never empty: every branch of
`clfRequestRow` emits at least one field. -/
theorem clfRequestRow_ne_nil (ps : List String) (req : String) : clfRequestRow ps req ≠ [] := by
  unfold clfRequestRow
  split
  · exact List.cons_ne_nil _ _
  · split
    · exact List.cons_ne_nil _ _
    · exact List.cons_ne_nil _ _

/-- A successful logfmt parse is non-empty (the source checks this before
returning). -/
theorem parseLogfmt_some_ne_nil (l : String) (r : Row) (h : parseLogfmt l = some r) :
    r ≠ [] := by
  intro hr
  subst hr
  simp only [parseLogfmt] at h
  split at h
  · cases h
  · split at h
    · rename_i hlen
      injection h with h2
      rw [h2] at hlen
      simp at hlen
    · cases h

/-- A successful syslog parse is non-empty (it always carries the priority
fields). -/
theorem parseSyslog_some_ne_nil (l : String) (r : Row) (h : parseSyslog l = some r) :
    r ≠ [] := by
  intro hr
  subst hr
  simp only [parseSyslog] at h
  repeat' split at h
  all_goals cases h

/-- A successful Monolog parse is non-empty (it always carries a message
field). -/
theorem parseMonolog_some_ne_nil (l : String) (r : Row) (h : parseMonolog l = some r) :
    r ≠ [] := by
  intro hr
  subst hr
  simp only [parseMonolog] at h
  repeat' split at h
  all_goals first
    | cases h
    | (injection h with h2; exact upsertAssoc_ne_nil _ _ _ h2)

/-- A successful CLF parse is non-empty (it always carries the request
fields). -/
theorem parseCLF_some_ne_nil (l : String) (r : Row) (h : parseCLF l = some r) :
    r ≠ [] := by
  intro hr
  subst hr
  simp only [parseCLF] at h
  split at h
  · cases h
  · split at h
    · cases h
    · split at h
      · cases h
      · split at h
        · cases h
        · injection h with h2
          simp only [List.append_eq_nil] at h2
          exact clfRequestRow_ne_nil _ _ h2.1.1.1.1.1.1

/-- C5 (counterexample): the non-empty line consisting of an empty JSON
object parses to an EMPTY record, refuting "for every non-empty input line
the parser returns a non-empty Record". -/
theorem parse_empty_object_empty_row :
    ParseLineToValues "\x7b\x7d" = [] ∧ ("\x7b\x7d" : String) ≠ "" := by decide

/-- C5 (amended): `parse("")` is the empty record; a NON-empty line yields an
empty record only when the JSON detector itself succeeds with an empty
object (or bare null) — every other detector outcome gives a non-empty
record; and when no detector succeeds the result is the single `message`
field holding the line with ANSI escapes stripped. -/
theorem parse_empty_input_and_fallback :
    ParseLineToValues "" = [] ∧
    (∀ l : String, l ≠ "" → ParseLineToValues l = [] → parseJSON l = some []) ∧
    (∀ l : String, l ≠ "" → parseJSON l = none → parseSyslog l = none → parseCLF l = none →
      parseLogfmt l = none → parseMonolog l = none →
      ParseLineToValues l = [("message", .vstr (stripAnsiCodes l))]) := by
  refine ⟨rfl, ?_, ?_⟩
  · intro l hne h
    simp only [ParseLineToValues, if_neg hne] at h
    cases hj : parseJSON l with
    | some r =>
      simp only [hj] at h
      rw [h]
    | none =>
      simp only [hj] at h
      cases hs : parseSyslog l with
      | some r =>
        simp only [hs] at h
        exact absurd h (parseSyslog_some_ne_nil l r hs)
      | none =>
        simp only [hs] at h
        cases hc : parseCLF l with
        | some r =>
          simp only [hc] at h
          exact absurd h (parseCLF_some_ne_nil l r hc)
        | none =>
          simp only [hc] at h
          cases hf : parseLogfmt l with
          | some r =>
            simp only [hf] at h
            exact absurd h (parseLogfmt_some_ne_nil l r hf)
          | none =>
            simp only [hf] at h
            cases hm : parseMonolog l with
            | some r =>
              simp only [hm] at h
              exact absurd h (parseMonolog_some_ne_nil l r hm)
            | none =>
              simp only [hm] at h
              cases h
  · intro l hne h1 h2 h3 h4 h5
    simp only [ParseLineToValues, if_neg hne, h1, h2, h3, h4, h5]

/-- C5 (witness): the amended statement applied at the empty-object line and
at the ANSI-coloured fallback line. -/
theorem parse_empty_input_and_fallback_witness :
    parseJSON "\x7b\x7d" = some [] ∧
    ParseLineToValues "Done in \x1b[32m32ms\x1b[39m" =
      [("message", .vstr "Done in 32ms")] := by
  constructor
  · exact parse_empty_input_and_fallback.2.1 "\x7b\x7d" (by decide) (by decide)
  · have h := parse_empty_input_and_fallback.2.2 "Done in \x1b[32m32ms\x1b[39m"
      (by decide) (by decide) (by decide) (by decide) (by decide) (by decide)
    rw [h]
    decide

/-- C6 (counterexample): the JSON detector does not require the entire line
to be one JSON object: it accepts an object followed by trailing text, and it
accepts the bare scalar `null` (decoding into a nil map), refuting both the
"entire line" and the "fails on scalars" parts of the claim. -/
theorem parseJSON_trailing_and_null :
    parseJSON "\x7b\"a\": 1\x7d trailing" = some [("a", .vint 1)] ∧
    parseJSON "null" = some [] := by decide

/-- Whether the first JSON value decoded from the input unmarshals into a Go
map: an object, or the literal null (which leaves the map empty). -/
def decodesAsObjectOrNull (cs : List Char) : Bool :=
  match goJsonDecodeOne cs with
  | some (.jobj _, _) => true
  | some (.jnull, _) => true
  | _ => false

/-- C6 (amended): `parseJSON` succeeds exactly when one JSON value decodes
from the start of the line and that value is an object or the literal null
(input after the first value is ignored; arrays and the other scalars are
rejected by the map unmarshal); numbers whose literal is a decimal integer in
the signed 64-bit range decode as integers, and other in-range numbers as
64-bit floats — shown on a representative object covering the 64-bit
boundary. -/
theorem parseJSON_characterisation :
    (∀ l : String, (parseJSON l).isSome = decodesAsObjectOrNull l.data) ∧
    parseJSON "[1, 2]" = none ∧
    parseJSON "3.5" = none ∧
    parseJSON "\"text\"" = none ∧
    parseJSON "true" = none ∧
    parseJSON "\x7b\"i\": 123, \"f\": 2.5, \"e\": 1e2, \"big\": 9223372036854775808\x7d" =
      some [("i", .vint 123), ("f", .vfloat "2.5"), ("e", .vfloat "1e2"),
            ("big", .vfloat "9223372036854775808")] := by
  refine ⟨?_, by decide, by decide, by decide, by decide, by decide⟩
  intro l
  simp only [parseJSON, decodesAsObjectOrNull]
  cases goJsonDecodeOne l.data with
  | none => rfl
  | some p =>
    obtain ⟨v, rest⟩ := p
    cases v <;> rfl

/-- The RFC5424 line without structured-data brackets used to refute C7. -/
def syslogNoBracketLine : String :=
  "<165>1 2003-10-11T22:14:15.003Z mymachine.example.com evntslog - ID47 hello world"

/-- C7 (counterexample): on an RFC5424 line with no structured-data brackets
the code emits as `message` the WHOLE remainder after the priority —
version, timestamp, hostname, app name, procid and msgid included — not the
remainder after the 6 header fields. -/
theorem parseSyslog_no_bracket_message_full_rest :
    (parseSyslog syslogNoBracketLine).isSome = true ∧
    rowGet ((parseSyslog syslogNoBracketLine).getD []) "message" =
      some (.vstr
        "1 2003-10-11T22:14:15.003Z mymachine.example.com evntslog - ID47 hello world") ∧
    rowGet ((parseSyslog syslogNoBracketLine).getD []) "message" ≠
      some (.vstr "hello world") ∧
    rowGet ((parseSyslog syslogNoBracketLine).getD []) "structured_data" =
      some (.vmap .mnil) := by decide

/-- C7 (amended): for every RFC5424 syslog line (valid integer priority in
angle brackets, remainder starting with a digit, at least 7 whitespace
tokens) whose remainder contains no opening bracket, `parseSyslog` emits the
priority fields, the 6 header fields, an EMPTY `structured_data` mapping and
a `message` equal to the ENTIRE remainder after the closing `>` — the header
fields included — trimmed of surrounding whitespace. -/
theorem parseSyslog_no_brackets (l rest : String) (endPri : Nat) (priority : Int)
    (h1 : goStartsWithCh l '<' = true)
    (h2 : goIndexOfChar l '>' = some endPri)
    (h3 : goAtoi (goSlice l 1 endPri) = some priority)
    (h4 : rest = goSliceFrom l (endPri + 1))
    (h5 : rest.data.length > 0)
    (h6 : (rest.data.getD 0 ' ').isDigit = true)
    (h7 : (goFields rest).length ≥ 7)
    (h8 : goIndexOfChar rest '[' = none) :
    parseSyslog l = some
      [("priority", .vint priority),
       ("facility", .vint (Int.tdiv priority 8)),
       ("severity", .vint (Int.tmod priority 8)),
       ("version", .vint (goAtoiLoose ((goFields rest).getD 0 ""))),
       ("timestamp", .vstr ((goFields rest).getD 1 "")),
       ("hostname", .vstr ((goFields rest).getD 2 "")),
       ("app_name", .vstr ((goFields rest).getD 3 "")),
       ("procid", .vstr ((goFields rest).getD 4 "")),
       ("msgid", .vstr ((goFields rest).getD 5 "")),
       ("structured_data", .vmap .mnil),
       ("message", .vstr (goTrimSpace rest))] := by
  subst h4
  have h7' : ¬ ((goFields (goSliceFrom l (endPri + 1))).length < 7) := by omega
  simp only [parseSyslog, h1, h2, h3, h5, h6, h7', h8]
  simp

/-- C7 (witness): the amended statement applied at a concrete bracket-free
RFC5424 line. -/
theorem parseSyslog_no_brackets_witness :
    parseSyslog "<34>7 t1 h1 a1 p1 m1 tail text" = some
      [("priority", .vint 34), ("facility", .vint 4), ("severity", .vint 2),
       ("version", .vint 7), ("timestamp", .vstr "t1"), ("hostname", .vstr "h1"),
       ("app_name", .vstr "a1"), ("procid", .vstr "p1"), ("msgid", .vstr "m1"),
       ("structured_data", .vmap .mnil),
       ("message", .vstr "7 t1 h1 a1 p1 m1 tail text")] := by
  have h := parseSyslog_no_brackets "<34>7 t1 h1 a1 p1 m1 tail text"
    "7 t1 h1 a1 p1 m1 tail text" 3 34
    (by decide) (by decide) (by decide) (by decide)
    (by decide) (by decide) (by decide) (by decide)
  rw [h]
  decide

/-- C8: parsing the unbracketed CLF line yields the timestamp joined from
two tokens, method `GET`, path `/init.php`, the defaulted protocol
`HTTP/1.0`, status 200, the defaulted response size 0, and no `remote_user`
field. -/
theorem parse_clf_unbracketed_line :
    rowGet (ParseLineToValues "10.10.2.11 -  21/Sep/2025:19:41:57 +0000 \"GET /init.php\" 200")
        "timestamp" = some (.vstr "21/Sep/2025:19:41:57 +0000") ∧
    rowGet (ParseLineToValues "10.10.2.11 -  21/Sep/2025:19:41:57 +0000 \"GET /init.php\" 200")
        "method" = some (.vstr "GET") ∧
    rowGet (ParseLineToValues "10.10.2.11 -  21/Sep/2025:19:41:57 +0000 \"GET /init.php\" 200")
        "path" = some (.vstr "/init.php") ∧
    rowGet (ParseLineToValues "10.10.2.11 -  21/Sep/2025:19:41:57 +0000 \"GET /init.php\" 200")
        "protocol" = some (.vstr "HTTP/1.0") ∧
    rowGet (ParseLineToValues "10.10.2.11 -  21/Sep/2025:19:41:57 +0000 \"GET /init.php\" 200")
        "status" = some (.vint 200) ∧
    rowGet (ParseLineToValues "10.10.2.11 -  21/Sep/2025:19:41:57 +0000 \"GET /init.php\" 200")
        "response_size" = some (.vint 0) ∧
    rowGet (ParseLineToValues "10.10.2.11 -  21/Sep/2025:19:41:57 +0000 \"GET /init.php\" 200")
        "remote_user" = none := by decide

/-! ### The schema-evolution writer

The external store is modelled as explicit state: the tables with their
ordered columns, and a log of every DDL and insert operation executed.
Store operations themselves always succeed (the driver errors of the
source are out of scope); the writer's own control flow, including the
promotion-failure path, is mirrored exactly. -/

/-- Embedding of `typeFromFloat64` applied to the decimal literal that
carries a `float64` value: `Float` within ±3.4e38, `Double` within
±1.7e308, otherwise the `UnknownFloat` sentinel.  The bounds are compared
exactly on the decimal literal. -/
def typeFromFloat64 (lit : String) : ColumnType :=
  match parseDecLit lit.data with
  | none => .UnknownFloat
  | some d =>
    if decMagLE d 34 37 then .Float
    else if decMagLE d 17 307 then .Double
    else .UnknownFloat

/-- Embedding of `duckDbTypeFromInput`: the analytical column type of a Go
runtime value.  A `json.Number` (`vnum`) is its own dynamic type and matches
none of the switch cases, so it falls to the `Unknown` default exactly as in
the source. -/
def duckDbTypeFromInput : Value → ColumnType
  | .vnull => .Null
  | .vbool _ => .Boolean
  | .vint i => typeFromInt64 i
  | .vfloat lit => typeFromFloat64 lit
  | .vnum _ => .Unknown
  | .vstr s => typeFromString s
  | .vtime _ => .Timestamp
  | .varr _ => .Json
  | .vmap _ => .JsonMap

/-- The escape of one character inside a serialised JSON string. -/
def jsonEscapeChar (c : Char) : List Char :=
  if c = '"' then ['\\', '"']
  else if c = '\\' then ['\\', '\\']
  else if c = '\n' then ['\\', 'n']
  else if c = '\r' then ['\\', 'r']
  else if c = '\t' then ['\\', 't']
  else [c]

/-- A serialised JSON string literal. -/
def jsonEncodeStr (s : String) : String :=
  String.mk ('"' :: s.data.foldr (fun c acc => jsonEscapeChar c ++ acc) ['"'])

mutual
/-- Model of `json.Marshal` on a Go `any` value, used when flattening
arrays; numeric values print their carried literals. -/
def vjsonEncode : Value → String
  | .vnull => "null"
  | .vbool true => "true"
  | .vbool false => "false"
  | .vint i => toString i
  | .vfloat lit => lit
  | .vnum lit => lit
  | .vstr s => jsonEncodeStr s
  | .vtime t => String.mk ('"' :: (t.data ++ ['"']))
  | .varr xs => "[" ++ vjsonEncodeList xs ++ "]"
  | .vmap m => String.mk [lbraceChar] ++ vjsonEncodeMap m ++ String.mk [rbraceChar]
/-- Comma-joined array elements of `vjsonEncode`. -/
def vjsonEncodeList : VList → String
  | .lnil => ""
  | .lcons v .lnil => vjsonEncode v
  | .lcons v rest => vjsonEncode v ++ "," ++ vjsonEncodeList rest
/-- Comma-joined object members of `vjsonEncode`. -/
def vjsonEncodeMap : VMap → String
  | .mnil => ""
  | .mcons k v .mnil => jsonEncodeStr k ++ ":" ++ vjsonEncode v
  | .mcons k v rest => jsonEncodeStr k ++ ":" ++ vjsonEncode v ++ "," ++ vjsonEncodeMap rest
end

mutual
/-- The flattened entries contributed by one field: nested maps recursively
flatten under underscore-joined keys, arrays serialise to JSON text, scalars
pass through — the body of the source's `flattenJsonMaps` loop. -/
def flattenValueEntries (k : String) : Value → List (String × Value)
  | .vmap m => (flattenVMap m).map (fun p => (k ++ "_" ++ p.1, p.2))
  | .varr xs => [(k, .vstr (vjsonEncode (.varr xs)))]
  | v => [(k, v)]
/-- `flattenJsonMaps` applied to a nested map. -/
def flattenVMap : VMap → List (String × Value)
  | .mnil => []
  | .mcons k v rest => flattenValueEntries k v ++ flattenVMap rest
end

/-- Embedding of `flattenJsonMaps`: flatten every field, with Go-map
overwrite semantics on any key collisions. -/
def flattenJsonMaps (row : Row) : Row :=
  dedupKeysLast (row.foldl (fun acc p => acc ++ flattenValueEntries p.1 p.2) [])

/-- A store operation executed by the writer. -/
inductive DbOp where
  | createTable (table : String)
  | addColumn (table col : String) (t : ColumnType)
  | alterColumn (table col : String) (t : ColumnType)
  | insert (table : String) (row : Row)
deriving DecidableEq, Repr

/-- The state of the external store: each table's columns in creation
order, and the log of executed operations. -/
structure DBState where
  tables : List (String × List (String × ColumnType))
  ops : List DbOp
deriving Repr

/-- Embedding of `Writer.getCurrentColumns`: the catalogue lookup of a
table's columns (empty when the table does not exist). -/
def getCurrentColumns (st : DBState) (table : String) : List (String × ColumnType) :=
  ((st.tables.find? (fun p => p.1 = table)).map (fun p => p.2)).getD []

/-- Embedding of `Writer.ensureTableExists`: create the table with the
single `timestamp TIMESTAMP` column when no columns exist yet, updating the
in-memory column view. -/
def ensureTableExists (st : DBState) (table : String)
    (existingCols : List (String × ColumnType)) :
    DBState × List (String × ColumnType) :=
  if existingCols.length = 0 then
    ({ tables := upsertAssoc st.tables table [("timestamp", .Timestamp)],
       ops := st.ops ++ [.createTable table] },
     [("timestamp", .Timestamp)])
  else (st, existingCols)

/-- Embedding of `Writer.promoteColumn`: the `ALTER COLUMN … SET DATA TYPE`
execution, recorded in the log and applied to the catalogue. -/
def promoteColumn (st : DBState) (table col : String) (promoteType : ColumnType) : DBState :=
  { tables := upsertAssoc st.tables table
      (upsertAssoc (getCurrentColumns st table) col promoteType),
    ops := st.ops ++ [.alterColumn table col promoteType] }

/-- Embedding of the loop of `Writer.promoteColumns`: for each field whose
column exists, promote the column type when the incoming type requires it;
a promotion-resolution failure aborts with an error. -/
def promoteLoop (st : DBState) (table : String)
    (cols : List (String × ColumnType)) :
    List (String × Value) → (DBState × List (String × ColumnType)) × Except String Unit
  | [] => ((st, cols), .ok ())
  | (col, value) :: rest =>
    match (cols.find? (fun p => p.1 = col)).map (fun p => p.2) with
    | none => promoteLoop st table cols rest
    | some oldType =>
      let givenType := duckDbTypeFromInput value
      if givenType = oldType then promoteLoop st table cols rest
      else
        match oldType.PromoteTo givenType with
        | .error e =>
          ((st, cols), .error ("failed get promotion type for column " ++ col ++ ": " ++ e))
        | .ok promoteType =>
          if promoteType = oldType then promoteLoop st table cols rest
          else
            promoteLoop (promoteColumn st table col promoteType) table
              (upsertAssoc cols col promoteType) rest

/-- Embedding of `getFieldsFromMap`: `user: map(id: 123)` contributes a
column `user_id` with the inferred type of `123`. -/
def getFieldsFromMap (value : Value) (parentKey : String) : List (String × ColumnType) :=
  match value with
  | .vmap m => (VMap.toList m).map (fun p => (parentKey ++ "_" ++ p.1, duckDbTypeFromInput p.2))
  | _ => []

/-- Embedding of the loop of `Writer.addMissingColumns`: add a column for
each field absent from the catalogue (expanding a `JsonMap` into per-leaf
columns); as in the source, the in-memory column view is not updated. -/
def addMissingLoop (st : DBState) (table : String)
    (cols : List (String × ColumnType)) : List (String × Value) → DBState
  | [] => st
  | (col, value) :: rest =>
    if (cols.find? (fun p => p.1 = col)).isSome then addMissingLoop st table cols rest
    else
      let t := duckDbTypeFromInput value
      let columnsToAdd := if t = .JsonMap then getFieldsFromMap value col else [(col, t)]
      let st2 := columnsToAdd.foldl (fun acc p =>
        { tables := upsertAssoc acc.tables table
            (upsertAssoc (getCurrentColumns acc table) p.1 p.2),
          ops := acc.ops ++ [.addColumn table p.1 p.2] }) st
      addMissingLoop st2 table cols rest

/-- Embedding of `getDateFromTimestamp`: the date part of the row's
reference timestamp (a `time.Time` formats its date; text keeps its first
ten characters). -/
def getDateFromTimestamp : Option Value → Option String
  | some (.vtime t) => some (goSliceTo t 10)
  | some (.vstr t) => if t.data.length ≥ 10 then some (goSliceTo t 10) else none
  | _ => none

/-- Embedding of `preprocessTimestamp`: prefix a bare `HH:MM:SS…` text with
the date of the row's `timestamp` value. -/
def preprocessTimestamp (value : Value) (row : Row) : Value :=
  match value with
  | .vstr strVal =>
    if strVal.data.length ≥ 8 ∧ strVal.data.getD 2 ' ' = ':' ∧ strVal.data.getD 5 ' ' = ':' then
      match getDateFromTimestamp (rowGet row "timestamp") with
      | some ts => .vstr (ts ++ " " ++ strVal)
      | none => value
    else value
  | _ => value

/-- Embedding of `Writer.preprocessRow`: repair partial time values in every
non-`timestamp` column whose current type is `Timestamp`. -/
def preprocessRow (row : Row) (cols : List (String × ColumnType)) : Row :=
  row.map (fun p =>
    if p.1 ≠ "timestamp" ∧
        ((cols.find? (fun q => q.1 = p.1)).map (fun q => q.2)) = some ColumnType.Timestamp then
      (p.1, preprocessTimestamp p.2 row)
    else p)

/-- Embedding of `Writer.Write`: early exit on rows with at most one field,
then read the schema, create the table if absent, flatten, promote, add
missing columns, repair partial temporals and insert. -/
def WriterWrite (st : DBState) (table : String) (row : Row) :
    DBState × Except String Unit :=
  if row.length ≤ 1 then (st, .ok ())
  else
    let cols := getCurrentColumns st table
    let stCols := ensureTableExists st table cols
    let row2 := flattenJsonMaps row
    match promoteLoop stCols.1 table stCols.2 row2 with
    | ((st2, _), .error e) => (st2, .error ("before insert new row: " ++ e))
    | ((st2, cols2), .ok _) =>
      let st3 := addMissingLoop st2 table cols2 row2
      let row3 := preprocessRow row2 cols2
      ({ st3 with ops := st3.ops ++ [.insert table row3] }, .ok ())

/-- C9: for every store state, table name and record with at most one field,
`Writer.Write` returns success immediately and performs no store operation:
the state — tables, columns and operation log — is returned unchanged, so no
table is created, no column is added or altered, and no row is inserted. -/
theorem write_small_row_no_effect (st : DBState) (table : String) (row : Row)
    (h : row.length ≤ 1) :
    WriterWrite st table row = (st, .ok ()) := by
  simp [WriterWrite, h]

/-- C9 (witness): the early exit applied to an empty store and a
timestamp-only record. -/
theorem write_small_row_no_effect_witness :
    WriterWrite ⟨[], []⟩ "logs" [("timestamp", .vtime "2025-01-01 00:00:00")] =
      (⟨[], []⟩, .ok ()) :=
  write_small_row_no_effect ⟨[], []⟩ "logs" [("timestamp", .vtime "2025-01-01 00:00:00")]
    (by decide)

end Timeline
